import Mathlib

/-!
Verification of the reconciliation core of a node-level Kubernetes container
log watcher (container discovery, log-target building, the watched-set sync
pass, the watch loop's exception dispatch, and the Scalyr output agent).

The Lean definitions below are a shallow embedding of the Python sources
`kube_log_watcher/main.py` and `kube_log_watcher/agents/scalyr.py`.
External collaborators (the `kube` pod API module, `json.loads`, the Jinja
template renderer, the filesystem, `binascii.crc32`) are passed in as
explicit function parameters or abstracted state, never reimplemented.
-/

namespace KubeLogWatcher

/-- Python JSON-ish values, as produced by `json.loads` and stored in pod
annotations and agent log maps. -/
inductive PyVal where
  | pyNone
  | pyStr (s : String)
  | pyInt (n : Int)
  | pyList (xs : List PyVal)
  | pyDict (kvs : List (String × PyVal))
  deriving BEq

/-- Python truthiness for the values above (`if v:`). -/
def pyTruthy : PyVal → Bool
  | .pyNone => false
  | .pyStr s => s ≠ ""
  | .pyInt n => n ≠ 0
  | .pyList xs => !xs.isEmpty
  | .pyDict kvs => !kvs.isEmpty

/-- Python `d.get(k, default)` on a string-keyed dict. -/
def dictGet (kvs : List (String × PyVal)) (k : String) (dflt : PyVal) : PyVal :=
  (kvs.lookup k).getD dflt

/-- Python `d[k] = v` on an association-list dict (replace or append). -/
def dictSet {α : Type} (xs : List (String × α)) (k : String) (v : α) :
    List (String × α) :=
  if xs.any (fun p => p.1 == k) then
    xs.map (fun p => if p.1 == k then (k, v) else p)
  else
    xs ++ [(k, v)]

/-- Python `del d[k]` on an association-list dict (missing key is logged by
the callers, never fatal). -/
def dictDel {α : Type} (xs : List (String × α)) (k : String) :
    List (String × α) :=
  xs.filter (fun p => !(p.1 == k))

/-! ## Container discovery (`main.get_containers`) -/

/-- The part of a parsed `config.v2.json` used by the watcher:
`config['Config']['Labels']` and `config['Config']['Image']`.
A real metadata file always parses to a non-empty dict, so a successfully
parsed config is truthy. -/
structure ContainerConfig where
  labels : List (String × String)
  image : String
  deriving DecidableEq

/-- A file inside one container directory: its name, and — meaningful only
when the name is `config.v2.json` — the outcome `json.load` would produce
for it (`none` models a parse exception). -/
structure DirFile where
  name : String
  parsedConfig : Option ContainerConfig
  deriving DecidableEq

/-- One directory visited by `os.walk(containers_path)`. -/
structure DirEntry where
  container_path : String
  files : List DirFile
  deriving DecidableEq

/-- Python `s.split(sep)` for a one-character separator, via the
structurally recursive list splitter (so that proofs can evaluate it). -/
def pySplit (s : String) (sep : Char) : List String :=
  (s.data.splitOn sep).map (fun cs => String.mk cs)

/-- Python `s.endswith(post)`. -/
def pyEndsWith (s post : String) : Bool :=
  post.data.isSuffixOf s.data

/-- `os.path.basename`. -/
def basename (p : String) : String :=
  (pySplit p '/').getLastD ""

/-- A discovered container descriptor (`{'id', 'config', 'log_file'}`). -/
structure Container where
  id : String
  config : ContainerConfig
  log_file : String
  deriving DecidableEq

/-- The `for f in files` loop of `get_containers`: accumulates the parsed
config (initially the falsy `{}`, modelled as `none`) and whether the
`<id>-json.log` file was seen; a metadata parse exception logs and
`break`s out of the loop. -/
def scanContainerFiles (log_file_name : String) :
    List DirFile → Option ContainerConfig × Bool → Option ContainerConfig × Bool
  | [], st => st
  | f :: rest, (config, hasLog) =>
    if f.name == "config.v2.json" then
      match f.parsedConfig with
      | none => (config, hasLog)          -- exception: log and break
      | some c => scanContainerFiles log_file_name rest (some c, hasLog)
    else if f.name == log_file_name then
      scanContainerFiles log_file_name rest (config, true)
    else
      scanContainerFiles log_file_name rest (config, hasLog)

/-- One iteration of the `os.walk` loop in `get_containers`: yields a
descriptor only when `source_log_file and config` is truthy. -/
def collectContainer (e : DirEntry) : Option Container :=
  let container_id := basename e.container_path
  let log_file_name := container_id ++ "-json.log"
  match scanContainerFiles log_file_name e.files (none, false) with
  | (some config, true) =>
      some { id := container_id, config := config,
             log_file := e.container_path ++ "/" ++ log_file_name }
  | _ => none

/-- `main.get_containers`: scan every walked directory, keeping the
descriptors of directories holding both a parseable metadata file and the
correspondingly-named log file. -/
def get_containers (entries : List DirEntry) : List Container :=
  entries.filterMap collectContainer

/-! ## Log target builder (`main.get_new_containers_log_targets`) -/

/-- Pod metadata fetched from the Kubernetes API (`metadata.labels` and
`metadata.annotations`; annotation values are raw JSON strings). -/
structure PodMeta where
  labels : List (String × String)
  annotations : List (String × String)
  deriving DecidableEq

/-- `main.get_container_label_value`: first label key ending with the
suffix wins; `None` when absent. -/
def get_container_label_value (labels : List (String × String))
    (label : String) : Option String :=
  (labels.find? (fun p => pyEndsWith p.1 label)).map (fun p => p.2)

/-- `main.get_container_image_parts`:
`config['Image'].split('/')[-1].split(':')`, tag defaulting to `latest`. -/
def get_container_image_parts (image : String) : String × String :=
  let docker_image_parts := pySplit ((pySplit image '/').getLastD "") ':'
  (docker_image_parts.headD "",
   if docker_image_parts.length > 1 then docker_image_parts.getLastD ""
   else "latest")

/-- The `kwargs` dict of a log target, with one typed field per key
assigned in `get_new_containers_log_targets`. -/
structure TargetKwargs where
  container_id : String
  container_path : String
  log_file_name : String
  log_file_path : String
  image : String
  image_version : String
  application : String
  component : Option String
  environment : String
  version : String
  release : String
  cluster_id : Option String
  pod_name : Option String
  pod_namespace : Option String
  container_name : Option String
  node_name : Option String
  pod_annotations : List (String × String)
  deriving DecidableEq

/-- A log target (`{'id', 'kwargs', 'pod_labels'}`). -/
structure LogTarget where
  id : String
  kwargs : TargetKwargs
  pod_labels : List (String × String)
  deriving DecidableEq

/-- The external collaborators of the builder: the `kube` module's pause
detection and pod lookup (pod-not-found and any other lookup failure both
end in the container being skipped, so both are `none`). -/
structure BuilderEnv where
  is_pause_container : ContainerConfig → Bool
  get_pod : Option String → Option String → Option PodMeta

/-- Builder configuration coming from the CLI / environment. -/
structure BuilderCfg where
  containers_path : String
  cluster_id : Option String
  cluster_environment : String    -- CLUSTER_ENVIRONMENT, default 'production'
  cluster_node_name : Option String
  strict_labels : List String

/-- The body of the `for container in containers` loop of
`get_new_containers_log_targets`: build one target or skip (pause
container, unresolvable pod, or a missing strict label). -/
def build_log_target (env : BuilderEnv) (cfg : BuilderCfg) (c : Container) :
    Option LogTarget :=
  let config := c.config
  if env.is_pause_container config then
    none
  else
    let pod_name := get_container_label_value config.labels "pod.name"
    let container_name := get_container_label_value config.labels "container.name"
    let pod_namespace := get_container_label_value config.labels "pod.namespace"
    match env.get_pod pod_name pod_namespace with
    | none => none
    | some pod =>
      let pod_labels := pod.labels
      let pod_annotations := pod.annotations
      let imageParts := get_container_image_parts config.image
      let kwargs : TargetKwargs :=
        { container_id := c.id
          container_path := cfg.containers_path ++ "/" ++ c.id
          log_file_name := basename c.log_file
          log_file_path := c.log_file
          image := imageParts.1
          image_version := imageParts.2
          application := (pod_labels.lookup "application").getD ""
          component := pod_labels.lookup "component"
          environment := (pod_labels.lookup "environment").getD cfg.cluster_environment
          version := (pod_labels.lookup "version").getD ""
          release := (pod_labels.lookup "release").getD ""
          cluster_id := cfg.cluster_id
          pod_name := pod_name
          pod_namespace := pod_namespace
          container_name := container_name
          node_name := cfg.cluster_node_name
          pod_annotations := pod_annotations }
      -- if set(strict_labels) - set(pod_labels.keys()): skip
      if cfg.strict_labels.any (fun l => (pod_labels.lookup l).isNone) then
        none
      else
        some { id := c.id, kwargs := kwargs, pod_labels := pod_labels }

/-- `main.get_new_containers_log_targets` (any exception inside one
iteration is caught and that container skipped, which the `Option` result
of `build_log_target` already models). -/
def get_new_containers_log_targets (env : BuilderEnv) (cfg : BuilderCfg)
    (containers : List Container) : List LogTarget :=
  containers.filterMap (build_log_target env cfg)

/-! ## The sync pass (`main.sync_containers_log_agents`) -/

/-- What one sync pass returns and which agent calls it makes. Every agent
is driven with the same target list and stale set (an agent failing
mid-way only truncates its own calls, never adds any). -/
structure SyncResult where
  new_container_ids : Finset String
  stale_container_ids : Finset String
  add_calls : List LogTarget
  remove_calls : Finset String

/-- `main.sync_containers_log_agents` as a pure function of the watched
set and the discovered containers. -/
def sync_containers_log_agents (env : BuilderEnv) (cfg : BuilderCfg)
    (watched_containers : Finset String) (containers : List Container) :
    SyncResult :=
  let new_containers :=
    containers.filter (fun c => decide (c.id ∉ watched_containers))
  let new_containers_log_targets :=
    get_new_containers_log_targets env cfg new_containers
  let new_container_ids :=
    (new_containers_log_targets.map (fun t => t.id)).toFinset
  let existing_container_ids := (containers.map (fun c => c.id)).toFinset
  let stale_container_ids := watched_containers \ existing_container_ids
  { new_container_ids := new_container_ids
    stale_container_ids := stale_container_ids
    add_calls := new_containers_log_targets
    remove_calls := stale_container_ids }

/-- The `watch` loop's update of its watched set after a sync pass:
`watched_containers.update(new_container_ids)` followed by
`watched_containers = watched_containers - stale_container_ids`. -/
def watch_update (watched_containers : Finset String) (r : SyncResult) :
    Finset String :=
  (watched_containers ∪ r.new_container_ids) \ r.stale_container_ids

/-- One reconciliation tick's effect on the watched set (discovery result
fixed to `containers`). -/
def watch_tick (env : BuilderEnv) (cfg : BuilderCfg)
    (watched_containers : Finset String) (containers : List Container) :
    Finset String :=
  watch_update watched_containers
    (sync_containers_log_agents env cfg watched_containers containers)

/-! ## The watch loop's exception dispatch (`main.watch`) -/

/-- The exceptions distinguished by the `try/except` ladder of `watch`. -/
inductive PyExc where
  | keyboardInterrupt
  | assertionError
  | otherError (msg : String)
  deriving DecidableEq

/-- What the loop does after a tick: continue after the normal sleep,
return cleanly, re-raise an exception, or retry after a shortened sleep
(durations in seconds, `time.sleep` takes a float). -/
inductive LoopAction where
  | continueAfterSleep (secs : ℚ)
  | exitLoop
  | raiseExc (e : PyExc)
  | retryAfterSleep (secs : ℚ)
  deriving DecidableEq

/-- The `except` ladder of `watch`: `AssertionError` is re-raised,
`KeyboardInterrupt` returns, any other exception is logged and retried
after `interval / 2`; a tick without an exception sleeps `interval` and
continues. -/
def watch_tick_dispatch (interval : ℚ) : Option PyExc → LoopAction
  | none => .continueAfterSleep interval
  | some .assertionError => .raiseExc .assertionError
  | some .keyboardInterrupt => .exitLoop
  | some _ => .retryAfterSleep (interval / 2)

/-! ## The Scalyr agent (`agents/scalyr.py`) -/

/-- `SCALYR_ANNOTATION_PARSER` in the source. -/
def SCALYR_ANNOT_KEY_OF_PARSER : String :=
  "kubernetes-log-watcher/scalyr-parser"

/-- `SCALYR_ANNOTATION_SAMPLING_RULES` in the source. -/
def SCALYR_ANNOT_KEY_OF_SAMPLING : String :=
  "kubernetes-log-watcher/scalyr-sampling-rules"

/-- `SCALYR_ANNOTATION_REDACTION_RULES` in the source. -/
def SCALYR_ANNOT_KEY_OF_REDACTION : String :=
  "kubernetes-log-watcher/scalyr-redaction-rules"

/-- The built-in JWT token redaction rule appended to every target. -/
def JWT_REDACTION_RULE : PyVal :=
  .pyDict
    [("match_expression",
      .pyStr "eyJ[a-zA-Z0-9/+_=-]\x7b5,\x7d\\.eyJ[a-zA-Z0-9/+_=-]\x7b5,\x7d\\.[a-zA-Z0-9/+_=-]\x7b5,\x7d"),
     ("replacement", .pyStr "+++JWT_TOKEN_REDACTED+++")]

/-- `SCALYR_DEFAULT_PARSER` in the source. -/
def SCALYR_DEFAULT_PARSER_NAME : String := "json"

/-- Python `candidate.get('container') == container_name`, where the
looked-up value is JSON data and `container_name` may be `None`. -/
def pyEqOptStr (v : PyVal) (name : Option String) : Bool :=
  match v, name with
  | .pyStr s, some n => s == n
  | .pyNone, none => true
  | _, _ => false

/-- The `for candidate in result_candidates` loop of
`container_annotation`: the first candidate naming this container wins;
`candidate.get` on a non-dict raises `AttributeError` (not caught there),
modelled as `Except.error`. -/
def findAnnotCandidate (container_name : Option String) (result_key : String)
    (dflt : PyVal) : List PyVal → Except Unit PyVal
  | [] => .ok dflt
  | c :: rest =>
    match c with
    | .pyDict kvs =>
      if pyEqOptStr (dictGet kvs "container" .pyNone) container_name then
        .ok (dictGet kvs result_key dflt)
      else
        findAnnotCandidate container_name result_key dflt rest
    | _ => .error ()

/-- `scalyr.container_annotation`: look up a pod annotation, JSON-decode
it (`loads` is the external `json.loads`; `none` models
`JSONDecodeError`, which is caught and yields the default), require a
list, and return the matching candidate's value. -/
def container_annot (loads : String → Option PyVal)
    (annotations : List (String × String)) (container_name : Option String)
    (annot_key : String) (result_key : String) (dflt : PyVal) :
    Except Unit PyVal :=
  match annotations.lookup annot_key with
  | none => .ok dflt
  | some raw =>
    match loads raw with
    | none => .ok dflt                    -- JSONDecodeError: log and default
    | some (.pyList result_candidates) =>
        findAnnotCandidate container_name result_key dflt result_candidates
    | some _ => .ok dflt                  -- non-list: warn and default

/-- `scalyr.get_parser`. -/
def get_parser_choice (loads : String → Option PyVal)
    (annotations : List (String × String)) (container_name : Option String) :
    Except Unit PyVal :=
  container_annot loads annotations container_name SCALYR_ANNOT_KEY_OF_PARSER
    "parser" (.pyStr SCALYR_DEFAULT_PARSER_NAME)

/-- `scalyr.get_sampling_rules`. -/
def get_sampling_rules (loads : String → Option PyVal)
    (annotations : List (String × String)) (container_name : Option String) :
    Except Unit PyVal :=
  container_annot loads annotations container_name SCALYR_ANNOT_KEY_OF_SAMPLING
    "sampling-rules" .pyNone

/-- `scalyr.get_redaction_rules`: annotation value defaulting to `[]`,
coerced to `[]` when not a list, with the built-in JWT rule appended. -/
def get_redaction_rules (loads : String → Option PyVal)
    (annotations : List (String × String)) (container_name : Option String) :
    Except Unit (List PyVal) :=
  match container_annot loads annotations container_name
      SCALYR_ANNOT_KEY_OF_REDACTION "redaction-rules" (.pyList []) with
  | .error e => .error e
  | .ok v =>
    let rules : List PyVal :=
      match v with
      | .pyList rs => rs
      | _ => []                           -- warn: expected list
    .ok (rules ++ [JWT_REDACTION_RULE])

/-- One configured cluster-wide sampling rule
(`configuration['scalyr_sampling_rules']`), already validated by
`parse_scalyr_sampling_rules`; absent dict keys are `none`. -/
structure SamplingRule where
  application : Option String
  component : Option String
  probability : Option ℚ
  value : String

/-- `ScalyrAgent.get_scalyr_sampling_rule`: the first configured rule
matching the container's application/component and its crc32-derived
sampling draw wins (`crc32` is the external `binascii.crc32`). -/
def get_scalyr_sampling_rule (crc32 : String → Nat)
    (rules : List SamplingRule) (application : String)
    (component : Option String) (container_id : String) : Option String :=
  match rules with
  | [] => none
  | r :: rest =>
    if (match r.application with
        | some a => decide (some a ≠ some application)
        | none => false) then
      get_scalyr_sampling_rule crc32 rest application component container_id
    else if (match r.component with
        | some cp => decide (some cp ≠ component)
        | none => false) then
      get_scalyr_sampling_rule crc32 rest application component container_id
    else if (match r.probability with
        | some p => decide (((crc32 container_id % 100 : ℚ) + 1) > p * 100)
        | none => false) then
      get_scalyr_sampling_rule crc32 rest application component container_id
    else
      some r.value

/-- One entry of the agent's Log Map (`self.logs[target['id']]`). -/
structure ScalyrLog where
  path : String
  sampling_rules : PyVal
  redaction_rules : List PyVal
  attributes : List (String × PyVal)
  parse_lines_as_json : Bool

/-- The mutable and configured state of a `ScalyrAgent` instance. The
on-disk config file is abstracted to the set of log paths that
`_get_current_log_paths` would extract from it (`none` = file absent;
rendering is external, and the agent itself only ever compares the
extracted path set). -/
structure ScalyrState where
  dest_path : String
  server_attributes : List (String × PyVal)
  json_parsers_mapping : List (String × String)
  scalyr_sampling_rules : List SamplingRule
  api_key : Option String
  logs : List (String × ScalyrLog)
  first_run : Bool          -- self._first_run, exposed by the property
  config_file : Option (Finset String)

/-- The tail of `ScalyrAgent.__init__` (after the fatal environment
checks): `self.api_key = None`, `self.logs = {}`,
`self._first_run = True`; the pre-existing on-disk config file is not
touched. -/
def scalyr_agent_init (dest_path : String)
    (server_attributes : List (String × PyVal))
    (json_parsers_mapping : List (String × String))
    (scalyr_sampling_rules : List SamplingRule)
    (config_file : Option (Finset String)) : ScalyrState :=
  { dest_path := dest_path
    server_attributes := server_attributes
    json_parsers_mapping := json_parsers_mapping
    scalyr_sampling_rules := scalyr_sampling_rules
    api_key := none
    logs := []
    first_run := true
    config_file := config_file }

/-- `ScalyrAgent._adjust_target_log_path` (`fsExists` is the external
`os.path.exists` on the source log path; the symlink and directory
creation are agent-owned side effects with no bearing on the returned
path). -/
def adjust_target_log_path (fsExists : String → Bool) (dest_path : String)
    (t : LogTarget) : Option String :=
  let src_log_path := t.kwargs.log_file_path
  let application :=
    if t.kwargs.application ≠ "" then t.kwargs.application
    else match t.kwargs.pod_name with
      | some p => if p ≠ "" then p else "none"
      | none => "none"
  let version := if t.kwargs.version ≠ "" then t.kwargs.version else "none"
  let container_id := t.id
  if !fsExists src_log_path then
    none
  else
    some (dest_path ++ "/" ++ container_id ++ "/" ++ application ++ "-" ++
      version ++ ".log")

/-- Python `parser in self.json_parsers_mapping`: dict membership raises
`TypeError` on an unhashable key (a list or dict). -/
def pyStrKeyMember (v : PyVal) (d : List (String × String)) :
    Except Unit Bool :=
  match v with
  | .pyStr s => .ok (d.any (fun p => p.1 == s))
  | .pyList _ => .error ()
  | .pyDict _ => .error ()
  | _ => .ok false

/-- `ScalyrAgent.add_log_target`. A raised exception (`Except.error`)
leaves the agent unchanged from the caller's point of view: it is caught
by the sync pass at the agent level. -/
def scalyr_add_log_target (loads : String → Option PyVal)
    (fsExists : String → Bool) (crc32 : String → Nat) (s : ScalyrState)
    (t : LogTarget) : Except Unit ScalyrState :=
  match adjust_target_log_path fsExists s.dest_path t with
  | none => .ok s                         -- warn and skip this target
  | some log_path =>
    let kwargs := t.kwargs
    let annots := kwargs.pod_annotations
    match get_parser_choice loads annots kwargs.container_name with
    | .error e => .error e
    | .ok parserAnnotVal =>
      match pyStrKeyMember parserAnnotVal s.json_parsers_mapping with
      | .error e => .error e
      | .ok inMapping =>
        let stage :=
          if inMapping then
            (true,
             match parserAnnotVal with
             | .pyStr p => PyVal.pyStr ((s.json_parsers_mapping.lookup p).getD "")
             | v => v)
          else if (s.json_parsers_mapping.lookup "*").isSome then
            (true, parserAnnotVal)
          else
            (false, parserAnnotVal)
        let parse_lines_as_json := stage.1
        let parserVal := stage.2
        let attributes : List (String × PyVal) :=
          [("application", .pyStr kwargs.application),
           ("component",
            match kwargs.component with
            | some c => .pyStr c
            | none => .pyNone),
           ("environment", .pyStr kwargs.environment),
           ("version", .pyStr kwargs.version),
           ("release", .pyStr kwargs.release),
           ("pod",
            match kwargs.pod_name with
            | some p => .pyStr p
            | none => .pyNone),
           ("namespace",
            match kwargs.pod_namespace with
            | some n => .pyStr n
            | none => .pyNone),
           ("container",
            match kwargs.container_name with
            | some n => .pyStr n
            | none => .pyNone),
           ("container_id", .pyStr kwargs.container_id),
           ("parser", parserVal)]
        -- keep only truthy attributes not duplicated in server_attributes
        let attributes := attributes.filter (fun kv =>
          pyTruthy kv.2 &&
          !((s.server_attributes.lookup kv.1).getD .pyNone == kv.2))
        let samplingOverride :=
          get_scalyr_sampling_rule crc32 s.scalyr_sampling_rules
            kwargs.application kwargs.component kwargs.container_id
        let annots :=
          match samplingOverride with
          | some v => dictSet annots SCALYR_ANNOT_KEY_OF_SAMPLING v
          | none => annots
        match get_sampling_rules loads annots kwargs.container_name with
        | .error e => .error e
        | .ok sampling =>
          match get_redaction_rules loads annots kwargs.container_name with
          | .error e => .error e
          | .ok redaction =>
            let log : ScalyrLog :=
              { path := log_path
                sampling_rules := sampling
                redaction_rules := redaction
                attributes := attributes
                parse_lines_as_json := parse_lines_as_json }
            .ok { s with logs := dictSet s.logs t.id log }

/-- `ScalyrAgent.remove_log_target`: drop the Log Map entry (a missing
entry is only logged) and remove the agent-owned container directory. -/
def scalyr_remove_log_target (s : ScalyrState) (container_id : String) :
    ScalyrState :=
  { s with logs := dictDel s.logs container_id }

/-- `ScalyrAgent._get_current_log_paths`: the paths recoverable from the
on-disk config file; a missing or unreadable file yields the empty set. -/
def scalyr_get_current_log_paths (s : ScalyrState) : Finset String :=
  s.config_file.getD ∅

/-- `ScalyrAgent.flush` with the API key file's current contents passed
in and `render_ok` modelling whether template rendering and the file
write succeed (a failure is caught and logged, leaving `_first_run`
untouched). Returns the new state and whether the config file was
written. -/
def scalyr_flush (s : ScalyrState) (api_key_contents : String)
    (render_ok : Bool) : ScalyrState × Bool :=
  let current_paths := scalyr_get_current_log_paths s
  let new_paths := (s.logs.map (fun kv => kv.2.path)).toFinset
  let new_api_key := api_key_contents
  let new_key := decide (s.api_key ≠ some new_api_key)
  let api_key := if new_key then some new_api_key else s.api_key
  -- if self._first_run or new_key or (new_paths ^ current_paths):
  if s.first_run || new_key ||
      decide ((new_paths \ current_paths ∪ current_paths \ new_paths) ≠ ∅) then
    if render_ok then
      ({ s with api_key := api_key, config_file := some new_paths,
                first_run := false }, true)
    else
      ({ s with api_key := api_key }, false)
  else
    ({ s with api_key := api_key }, false)

/-! ## Concrete fixtures (used by example conjuncts and witnesses) -/

/-- A pod carrying an `application` label. -/
def fxPod : PodMeta :=
  { labels := [("application", "svc")], annotations := [] }

/-- A builder environment in which every pod resolves to `fxPod`. -/
def fxEnv : BuilderEnv :=
  { is_pause_container := fun _ => false
    get_pod := fun _ _ => some fxPod }

/-- A builder environment in which every pod resolves with no labels. -/
def fxEnvNoLabels : BuilderEnv :=
  { is_pause_container := fun _ => false
    get_pod := fun _ _ => some { labels := [], annotations := [] } }

/-- Default builder configuration: no strict labels. -/
def fxCfg : BuilderCfg :=
  { containers_path := "/mnt/containers"
    cluster_id := some "cluster-1"
    cluster_environment := "production"
    cluster_node_name := some "node-1"
    strict_labels := [] }

/-- Builder configuration requiring the `team` label. -/
def fxCfgTeam : BuilderCfg :=
  { fxCfg with strict_labels := ["team"] }

/-- A discovered container with a given id. -/
def fxContainer (i : String) : Container :=
  { id := i
    config := { labels := [("io.kubernetes.pod.name", "pod-1")]
                image := "registry/app:1.0" }
    log_file := "/mnt/containers/" ++ i ++ "/" ++ i ++ "-json.log" }

/-- A parsed container metadata config. -/
def fxConfig : ContainerConfig :=
  { labels := [("io.kubernetes.pod.name", "pod-1")], image := "app:1.0" }

/-- A container directory holding a well-formed metadata file and its log
file. -/
def fxDirGood : DirEntry :=
  { container_path := "/mnt/containers/c1"
    files := [{ name := "config.v2.json", parsedConfig := some fxConfig },
              { name := "c1-json.log", parsedConfig := none }] }

/-- A container directory whose metadata file fails to parse. -/
def fxDirMalformed : DirEntry :=
  { container_path := "/mnt/containers/c2"
    files := [{ name := "config.v2.json", parsedConfig := none },
              { name := "c2-json.log", parsedConfig := none }] }

/-- A container directory missing its log file. -/
def fxDirNoLog : DirEntry :=
  { container_path := "/mnt/containers/c3"
    files := [{ name := "config.v2.json", parsedConfig := some fxConfig }] }

/-- A Scalyr log entry with a given path. -/
def fxLog (p : String) : ScalyrLog :=
  { path := p
    sampling_rules := .pyNone
    redaction_rules := [JWT_REDACTION_RULE]
    attributes := []
    parse_lines_as_json := false }

/-- A Scalyr agent state that has already flushed successfully: the
on-disk config file reflects exactly the Log Map's paths, the cached API
key matches the key file, and `_first_run` has been cleared. -/
def fxScalyrFlushed : ScalyrState :=
  { dest_path := "/mnt/scalyr"
    server_attributes := []
    json_parsers_mapping := []
    scalyr_sampling_rules := []
    api_key := some "key-1"
    logs := [("c1", fxLog "/mnt/scalyr/c1/svc-1.0.log")]
    first_run := false
    config_file := some {"/mnt/scalyr/c1/svc-1.0.log"} }

/-- A freshly initialized Scalyr agent state. -/
def fxScalyrFresh : ScalyrState :=
  scalyr_agent_init "/mnt/scalyr" [] [] [] none

/-- A log target for container `c1` whose source log file exists. -/
def fxTarget : LogTarget :=
  { id := "c1"
    kwargs :=
      { container_id := "c1"
        container_path := "/mnt/containers/c1"
        log_file_name := "c1-json.log"
        log_file_path := "/mnt/containers/c1/c1-json.log"
        image := "app"
        image_version := "1.0"
        application := "svc"
        component := none
        environment := "production"
        version := "1.0"
        release := ""
        cluster_id := some "cluster-1"
        pod_name := some "pod-1"
        pod_namespace := some "default"
        container_name := some "main"
        node_name := some "node-1"
        pod_annotations := [] }
    pod_labels := [("application", "svc")] }

/-- The log target the builder produces for `fxContainer "4"` under
`fxEnv` / `fxCfg`. -/
def fxT4 : LogTarget :=
  { id := "4"
    kwargs :=
      { container_id := "4"
        container_path := "/mnt/containers/4"
        log_file_name := "4-json.log"
        log_file_path := "/mnt/containers/4/4-json.log"
        image := "app"
        image_version := "1.0"
        application := "svc"
        component := none
        environment := "production"
        version := ""
        release := ""
        cluster_id := some "cluster-1"
        pod_name := some "pod-1"
        pod_namespace := none
        container_name := none
        node_name := some "node-1"
        pod_annotations := [] }
    pod_labels := [("application", "svc")] }

/-- The log target built for `fxContainer "1"` under `fxEnvNoLabels` /
`fxCfg` (a pod with no labels at all). -/
def fxT1Bare : LogTarget :=
  { id := "1"
    kwargs :=
      { container_id := "1"
        container_path := "/mnt/containers/1"
        log_file_name := "1-json.log"
        log_file_path := "/mnt/containers/1/1-json.log"
        image := "app"
        image_version := "1.0"
        application := ""
        component := none
        environment := "production"
        version := ""
        release := ""
        cluster_id := some "cluster-1"
        pod_name := some "pod-1"
        pod_namespace := none
        container_name := none
        node_name := some "node-1"
        pod_annotations := [] }
    pod_labels := [] }

/-! ## Helper lemmas -/

/-- Shape of a successfully built log target: built from a non-pause
container whose pod resolved and carried every strict label, with the
id, pod labels and label-derived fields coming straight from the
container and its pod. -/
theorem build_log_target_eq_some {env : BuilderEnv} {cfg : BuilderCfg}
    {c : Container} {t : LogTarget}
    (h : build_log_target env cfg c = some t) :
    ∃ pod : PodMeta,
      env.get_pod (get_container_label_value c.config.labels "pod.name")
          (get_container_label_value c.config.labels "pod.namespace")
        = some pod
      ∧ env.is_pause_container c.config = false
      ∧ cfg.strict_labels.any (fun l => (pod.labels.lookup l).isNone) = false
      ∧ t.id = c.id
      ∧ t.pod_labels = pod.labels
      ∧ t.kwargs.application = (pod.labels.lookup "application").getD ""
      ∧ t.kwargs.component = pod.labels.lookup "component"
      ∧ t.kwargs.environment
          = (pod.labels.lookup "environment").getD cfg.cluster_environment
      ∧ t.kwargs.version = (pod.labels.lookup "version").getD ""
      ∧ t.kwargs.release = (pod.labels.lookup "release").getD "" := by
  simp only [build_log_target] at h
  split at h
  · exact absurd h (by simp)
  · rename_i hpause
    split at h
    · exact absurd h (by simp)
    · rename_i pod hpod
      split at h
      · exact absurd h (by simp)
      · rename_i hstrict
        refine ⟨pod, hpod, by simpa using hpause, by simpa using hstrict, ?_⟩
        obtain rfl := (Option.some_inj.mp h).symm
        simp

/-- Membership in the built target list. -/
theorem mem_get_new_targets {env : BuilderEnv} {cfg : BuilderCfg}
    {cs : List Container} {t : LogTarget} :
    t ∈ get_new_containers_log_targets env cfg cs
      ↔ ∃ c ∈ cs, build_log_target env cfg c = some t := by
  simp [get_new_containers_log_targets, List.mem_filterMap]

/-- Membership in the new-container id set of one sync pass. -/
theorem mem_sync_new_ids {env : BuilderEnv} {cfg : BuilderCfg}
    {W : Finset String} {C : List Container} {x : String} :
    x ∈ (sync_containers_log_agents env cfg W C).new_container_ids
      ↔ ∃ c ∈ C, c.id ∉ W ∧ c.id = x
          ∧ (build_log_target env cfg c).isSome := by
  simp only [sync_containers_log_agents, List.mem_toFinset, List.mem_map]
  constructor
  · rintro ⟨t, ht, rfl⟩
    rw [mem_get_new_targets] at ht
    obtain ⟨c, hc, hbuild⟩ := ht
    rw [List.mem_filter] at hc
    obtain ⟨pod, -, -, -, hid, -⟩ := build_log_target_eq_some hbuild
    exact ⟨c, hc.1, by simpa using hc.2, hid.symm, by simp [hbuild]⟩
  · rintro ⟨c, hc, hnw, rfl, hsome⟩
    obtain ⟨t, hbuild⟩ := Option.isSome_iff_exists.mp hsome
    obtain ⟨pod, -, -, -, hid, -⟩ := build_log_target_eq_some hbuild
    refine ⟨t, ?_, hid⟩
    rw [mem_get_new_targets]
    exact ⟨c, List.mem_filter.mpr ⟨hc, by simpa using hnw⟩, hbuild⟩

/-- Membership in the stale id set of one sync pass. -/
theorem mem_sync_stale {env : BuilderEnv} {cfg : BuilderCfg}
    {W : Finset String} {C : List Container} {x : String} :
    x ∈ (sync_containers_log_agents env cfg W C).stale_container_ids
      ↔ x ∈ W ∧ ∀ c ∈ C, c.id ≠ x := by
  simp only [sync_containers_log_agents, Finset.mem_sdiff, List.mem_toFinset,
    List.mem_map]
  constructor
  · rintro ⟨hw, hne⟩
    exact ⟨hw, fun c hc hcx => hne ⟨c, hc, hcx⟩⟩
  · rintro ⟨hw, hne⟩
    exact ⟨hw, fun ⟨c, hc, hcx⟩ => hne c hc hcx⟩

/-! ## Claims -/

/-- C1: one sync pass computes the stale id set as exactly the watched
set minus the ids of discovered containers, and builds new log targets
only from discovered containers whose id is not watched; in particular,
with watched set `{1,2,3}` and discovered ids `{1,4}` (container 4
eligible), the stale set is `{2,3}` and the new id set is `{4}`. -/
theorem sync_stale_and_new_sets :
    (∀ (env : BuilderEnv) (cfg : BuilderCfg) (W : Finset String)
        (C : List Container),
      (sync_containers_log_agents env cfg W C).stale_container_ids
          = W \ (C.map (fun c => c.id)).toFinset
        ∧ ∀ t ∈ (sync_containers_log_agents env cfg W C).add_calls,
            t.id ∉ W ∧ ∃ c ∈ C, t.id = c.id)
    ∧ (sync_containers_log_agents fxEnv fxCfg {"1", "2", "3"}
        [fxContainer "1", fxContainer "4"]).stale_container_ids = {"2", "3"}
    ∧ (sync_containers_log_agents fxEnv fxCfg {"1", "2", "3"}
        [fxContainer "1", fxContainer "4"]).new_container_ids = {"4"} := by
  refine ⟨fun env cfg W C => ⟨rfl, fun t ht => ?_⟩, by decide, by decide⟩
  simp only [sync_containers_log_agents] at ht
  rw [mem_get_new_targets] at ht
  obtain ⟨c, hc, hbuild⟩ := ht
  rw [List.mem_filter] at hc
  obtain ⟨pod, -, -, -, hid, -⟩ := build_log_target_eq_some hbuild
  exact ⟨by rw [hid]; simpa using hc.2, c, hc.1, hid⟩

/-- Witness for C1: the target built for container `4` is among the add
calls of the concrete sync pass and satisfies the theorem's conclusion. -/
theorem sync_stale_and_new_sets_witness :
    fxT4 ∈ (sync_containers_log_agents fxEnv fxCfg {"1", "2", "3"}
        [fxContainer "1", fxContainer "4"]).add_calls
    ∧ (fxT4.id ∉ ({"1", "2", "3"} : Finset String)
        ∧ ∃ c ∈ [fxContainer "1", fxContainer "4"], fxT4.id = c.id) := by
  have hcalls : (sync_containers_log_agents fxEnv fxCfg {"1", "2", "3"}
      [fxContainer "1", fxContainer "4"]).add_calls = [fxT4] := rfl
  have hmem : fxT4 ∈ (sync_containers_log_agents fxEnv fxCfg {"1", "2", "3"}
      [fxContainer "1", fxContainer "4"]).add_calls := by
    rw [hcalls]; exact List.mem_singleton.mpr rfl
  exact ⟨hmem,
    (sync_stale_and_new_sets.1 fxEnv fxCfg {"1", "2", "3"}
      [fxContainer "1", fxContainer "4"]).2 fxT4 hmem⟩

/-- C9: the new id set and the stale id set of one sync pass are
disjoint, so adding the new ids and subtracting the stale ids commute. -/
theorem sync_new_stale_disjoint (env : BuilderEnv) (cfg : BuilderCfg)
    (W : Finset String) (C : List Container) :
    (sync_containers_log_agents env cfg W C).new_container_ids
        ∩ (sync_containers_log_agents env cfg W C).stale_container_ids = ∅
    ∧ watch_update W (sync_containers_log_agents env cfg W C)
        = (W \ (sync_containers_log_agents env cfg W C).stale_container_ids)
            ∪ (sync_containers_log_agents env cfg W C).new_container_ids := by
  have key : ∀ x, x ∈ (sync_containers_log_agents env cfg W C).new_container_ids →
      x ∉ (sync_containers_log_agents env cfg W C).stale_container_ids := by
    intro x hn hs
    rw [mem_sync_new_ids] at hn
    rw [mem_sync_stale] at hs
    obtain ⟨c, hc, -, rfl, -⟩ := hn
    exact hs.2 c hc rfl
  constructor
  · rw [Finset.eq_empty_iff_forall_not_mem]
    intro x hx
    rw [Finset.mem_inter] at hx
    exact key x hx.1 hx.2
  · ext x
    simp only [watch_update, Finset.mem_sdiff, Finset.mem_union]
    constructor
    · rintro ⟨hw | hn, hs⟩
      · exact Or.inl ⟨hw, hs⟩
      · exact Or.inr hn
    · rintro (⟨hw, hs⟩ | hn)
      · exact ⟨Or.inl hw, hs⟩
      · exact ⟨Or.inr hn, key x hn⟩

/-- C2: after every tick the watched set is (previous ∪ new ids) − stale
ids, and when a second tick discovers the identical container set, the
watched set is unchanged and no `remove_log_target` call occurs. -/
theorem watched_set_second_tick_noop (env : BuilderEnv) (cfg : BuilderCfg)
    (W : Finset String) (C : List Container) :
    watch_tick env cfg W C
        = (W ∪ (sync_containers_log_agents env cfg W C).new_container_ids)
            \ (sync_containers_log_agents env cfg W C).stale_container_ids
    ∧ watch_tick env cfg (watch_tick env cfg W C) C = watch_tick env cfg W C
    ∧ (sync_containers_log_agents env cfg (watch_tick env cfg W C) C).remove_calls
        = ∅ := by
  set W1 := watch_tick env cfg W C with hW1
  have hW1mem : ∀ x, x ∈ W1 ↔
      ((x ∈ W ∨ x ∈ (sync_containers_log_agents env cfg W C).new_container_ids)
        ∧ ¬(x ∈ (sync_containers_log_agents env cfg W C).stale_container_ids)) := by
    intro x
    rw [hW1]
    simp [watch_tick, watch_update]
  -- every member of W1 is the id of a discovered container
  have hsubD : ∀ x ∈ W1, ∃ c ∈ C, c.id = x := by
    intro x hx
    rw [hW1mem] at hx
    obtain ⟨hw | hn, hs⟩ := hx
    · by_contra hno
      exact hs (mem_sync_stale.mpr ⟨hw, fun c hc hcx => hno ⟨c, hc, hcx⟩⟩)
    · obtain ⟨c, hc, -, rfl, -⟩ := mem_sync_new_ids.mp hn
      exact ⟨c, hc, rfl⟩
  -- the second tick has no stale containers
  have hstale : (sync_containers_log_agents env cfg W1 C).stale_container_ids
      = ∅ := by
    rw [Finset.eq_empty_iff_forall_not_mem]
    intro x hx
    rw [mem_sync_stale] at hx
    obtain ⟨c, hc, hcx⟩ := hsubD x hx.1
    exact hx.2 c hc hcx
  -- the second tick has no new containers
  have hnew : (sync_containers_log_agents env cfg W1 C).new_container_ids
      = ∅ := by
    rw [Finset.eq_empty_iff_forall_not_mem]
    intro x hx
    obtain ⟨c, hc, hnw1, rfl, hsome⟩ := mem_sync_new_ids.mp hx
    -- c is discovered, so c.id survives the stale subtraction of tick one
    have hnotstale : ¬(c.id ∈ (sync_containers_log_agents env cfg W C).stale_container_ids) := by
      intro hs
      exact (mem_sync_stale.mp hs).2 c hc rfl
    -- hence c.id was neither watched nor newly added at tick one
    have hnw : c.id ∉ W ∧
        c.id ∉ (sync_containers_log_agents env cfg W C).new_container_ids := by
      constructor
      · intro hw
        exact hnw1 ((hW1mem c.id).mpr ⟨Or.inl hw, hnotstale⟩)
      · intro hn
        exact hnw1 ((hW1mem c.id).mpr ⟨Or.inr hn, hnotstale⟩)
    -- but an eligible unwatched discovered container lands in the new ids
    exact hnw.2 (mem_sync_new_ids.mpr ⟨c, hc, hnw.1, rfl, hsome⟩)
  refine ⟨rfl, ?_, ?_⟩
  · rw [watch_tick, watch_update, hnew, hstale]
    simp
  · show (sync_containers_log_agents env cfg W1 C).stale_container_ids = ∅
    exact hstale

/-- Witness for C2 at concrete inputs. -/
theorem watched_set_second_tick_noop_witness :
    watch_tick fxEnv fxCfg
        (watch_tick fxEnv fxCfg {"1", "2", "3"} [fxContainer "1", fxContainer "4"])
        [fxContainer "1", fxContainer "4"]
      = watch_tick fxEnv fxCfg {"1", "2", "3"} [fxContainer "1", fxContainer "4"]
    ∧ (sync_containers_log_agents fxEnv fxCfg
        (watch_tick fxEnv fxCfg {"1", "2", "3"} [fxContainer "1", fxContainer "4"])
        [fxContainer "1", fxContainer "4"]).remove_calls = ∅ :=
  ⟨(watched_set_second_tick_noop fxEnv fxCfg {"1", "2", "3"}
      [fxContainer "1", fxContainer "4"]).2.1,
   (watched_set_second_tick_noop fxEnv fxCfg {"1", "2", "3"}
      [fxContainer "1", fxContainer "4"]).2.2⟩

/-- C7: a container whose resolved pod lacks one of the configured strict
labels yields no log target, and every target passed to any agent's
`add_log_target` in a sync pass comes from a pod carrying all strict
labels. -/
theorem strict_labels_skip (env : BuilderEnv) (cfg : BuilderCfg)
    (c : Container) (pod : PodMeta)
    (hpod : env.get_pod (get_container_label_value c.config.labels "pod.name")
        (get_container_label_value c.config.labels "pod.namespace")
      = some pod)
    (l : String) (hl : l ∈ cfg.strict_labels)
    (hmiss : pod.labels.lookup l = none) :
    build_log_target env cfg c = none
    ∧ ∀ (W : Finset String) (C : List Container)
        (t : LogTarget), t ∈ (sync_containers_log_agents env cfg W C).add_calls →
        ∀ l2 ∈ cfg.strict_labels, (t.pod_labels.lookup l2).isSome := by
  have all_strict : ∀ (t : LogTarget) (c2 : Container),
      build_log_target env cfg c2 = some t →
      ∀ l2 ∈ cfg.strict_labels, (t.pod_labels.lookup l2).isSome := by
    intro t c2 hb l2 hl2
    obtain ⟨pod2, -, -, hstrict, -, hlabels, -⟩ := build_log_target_eq_some hb
    simp only [List.any_eq_false] at hstrict
    have h2 := hstrict l2 hl2
    cases hcase : pod2.labels.lookup l2 with
    | none => simp [hcase] at h2
    | some v => rw [hlabels, hcase]; rfl
  constructor
  · cases hb : build_log_target env cfg c with
    | none => rfl
    | some t =>
      obtain ⟨pod2, hpod2, -, hstrict, -⟩ := build_log_target_eq_some hb
      rw [hpod] at hpod2
      obtain rfl := Option.some_inj.mp hpod2
      simp only [List.any_eq_false] at hstrict
      have h2 := hstrict l hl
      simp [hmiss] at h2
  · intro W C t ht
    simp only [sync_containers_log_agents] at ht
    rw [mem_get_new_targets] at ht
    obtain ⟨c2, -, hb⟩ := ht
    exact all_strict t c2 hb

/-- Witness for C7: under strict labels `["team"]` and a pod with no
labels, the builder emits nothing for container `1`. -/
theorem strict_labels_skip_witness :
    fxEnvNoLabels.get_pod
        (get_container_label_value (fxContainer "1").config.labels "pod.name")
        (get_container_label_value (fxContainer "1").config.labels "pod.namespace")
      = some { labels := [], annotations := [] }
    ∧ "team" ∈ fxCfgTeam.strict_labels
    ∧ (([] : List (String × String)).lookup "team" = none)
    ∧ build_log_target fxEnvNoLabels fxCfgTeam (fxContainer "1") = none :=
  ⟨rfl, by decide, rfl,
   (strict_labels_skip fxEnvNoLabels fxCfgTeam (fxContainer "1")
     { labels := [], annotations := [] } rfl "team" (by decide) rfl).1⟩

/-- C5 counterexample: for a pod with no labels, the built target's
`component` field is `None`, not the empty string the claim states. -/
theorem log_target_component_default_cex :
    (build_log_target fxEnvNoLabels fxCfg (fxContainer "1")).map
        (fun t => t.kwargs.component) = some none
    ∧ (build_log_target fxEnvNoLabels fxCfg (fxContainer "1")).map
        (fun t => t.kwargs.component) ≠ some (some "") := by
  constructor
  · rfl
  · intro h
    rw [show (build_log_target fxEnvNoLabels fxCfg (fxContainer "1")).map
        (fun t => t.kwargs.component) = some none from rfl] at h
    simp at h

/-- C5 (amended): when the owning pod lacks the corresponding labels,
`application`, `version` and `release` default to the empty string,
`component` defaults to `None`, and `environment` defaults to the
cluster-wide default environment. -/
theorem log_target_label_defaults (env : BuilderEnv) (cfg : BuilderCfg)
    (c : Container) (t : LogTarget) (pod : PodMeta)
    (hpod : env.get_pod (get_container_label_value c.config.labels "pod.name")
        (get_container_label_value c.config.labels "pod.namespace")
      = some pod)
    (ha : pod.labels.lookup "application" = none)
    (hc : pod.labels.lookup "component" = none)
    (he : pod.labels.lookup "environment" = none)
    (hv : pod.labels.lookup "version" = none)
    (hr : pod.labels.lookup "release" = none)
    (hb : build_log_target env cfg c = some t) :
    t.kwargs.application = "" ∧ t.kwargs.component = none
    ∧ t.kwargs.version = "" ∧ t.kwargs.release = ""
    ∧ t.kwargs.environment = cfg.cluster_environment := by
  obtain ⟨pod2, hpod2, -, -, -, -, happ, hcomp, henv, hver, hrel⟩ :=
    build_log_target_eq_some hb
  rw [hpod] at hpod2
  obtain rfl := Option.some_inj.mp hpod2
  refine ⟨?_, ?_, ?_, ?_, ?_⟩
  · rw [happ, ha]; rfl
  · rw [hcomp, hc]
  · rw [hver, hv]; rfl
  · rw [hrel, hr]; rfl
  · rw [henv, he]; rfl

/-- Witness for C5 (amended) at a concrete pod without labels. -/
theorem log_target_label_defaults_witness :
    build_log_target fxEnvNoLabels fxCfg (fxContainer "1") = some fxT1Bare
    ∧ (fxT1Bare.kwargs.application = "" ∧ fxT1Bare.kwargs.component = none
        ∧ fxT1Bare.kwargs.version = "" ∧ fxT1Bare.kwargs.release = ""
        ∧ fxT1Bare.kwargs.environment = fxCfg.cluster_environment) :=
  ⟨rfl,
   log_target_label_defaults fxEnvNoLabels fxCfg (fxContainer "1") fxT1Bare
     { labels := [], annotations := [] } rfl rfl rfl rfl rfl rfl rfl⟩

/-- C6 counterexample: an `AssertionError` raised during a tick is
re-raised by the loop instead of being retried after half the interval,
so "keyboard interrupt is the only exception that escapes" is false. -/
theorem watch_assertion_error_cex :
    watch_tick_dispatch 60 (some .assertionError)
        = .raiseExc .assertionError
    ∧ watch_tick_dispatch 60 (some .assertionError)
        ≠ .retryAfterSleep (60 / 2) := by
  constructor
  · rfl
  · intro h
    rw [show watch_tick_dispatch 60 (some .assertionError)
        = .raiseExc .assertionError from rfl] at h
    simp at h

/-- C6 (amended): every exception during a tick other than the keyboard
interrupt and assertion errors is caught, logged and retried after half
the normal interval; the keyboard interrupt exits the loop cleanly (and
an assertion error is re-raised). -/
theorem watch_exception_retry_amended (interval : ℚ) (e : PyExc)
    (h1 : e ≠ .keyboardInterrupt) (h2 : e ≠ .assertionError) :
    watch_tick_dispatch interval (some e)
        = .retryAfterSleep (interval / 2)
    ∧ watch_tick_dispatch interval (some .keyboardInterrupt)
        = .exitLoop := by
  cases e with
  | keyboardInterrupt => exact absurd rfl h1
  | assertionError => exact absurd rfl h2
  | otherError msg => exact ⟨rfl, rfl⟩

/-- Witness for C6 (amended) at a concrete interval and exception. -/
theorem watch_exception_retry_amended_witness :
    ((PyExc.otherError "boom") ≠ PyExc.keyboardInterrupt
      ∧ (PyExc.otherError "boom") ≠ PyExc.assertionError)
    ∧ watch_tick_dispatch 60 (some (.otherError "boom"))
        = .retryAfterSleep (60 / 2) :=
  ⟨⟨by decide, by decide⟩,
   (watch_exception_retry_amended 60 (.otherError "boom")
     (by decide) (by decide)).1⟩

/-- The per-container log file name can never collide with the metadata
file name. -/
theorem log_name_ne_config (id : String) :
    id ++ "-json.log" ≠ "config.v2.json" := by
  intro h
  have h2 : (id ++ "-json.log").data = "config.v2.json".data :=
    congrArg String.data h
  rw [String.data_append] at h2
  have h3 : (id.data ++ "-json.log".data).getLast?
      = "config.v2.json".data.getLast? := by rw [h2]
  rw [List.getLast?_append] at h3
  rw [show "-json.log".data.getLast? = some 'g' from by decide] at h3
  rw [show (some 'g').or id.data.getLast? = some 'g' from rfl] at h3
  exact absurd h3 (by decide)

/-- If no file of the directory parses as the metadata file, the scanned
config stays falsy. -/
theorem scanFiles_no_parse (lfn : String) (fs : List DirFile)
    (h : ∀ f ∈ fs, f.name = "config.v2.json" → f.parsedConfig = none) :
    ∀ b, (scanContainerFiles lfn fs (none, b)).1 = none := by
  induction fs with
  | nil => intro b; rfl
  | cons f rest ih =>
    intro b
    have hrest : ∀ g ∈ rest, g.name = "config.v2.json" → g.parsedConfig = none :=
      fun g hg => h g (List.mem_cons_of_mem f hg)
    simp only [scanContainerFiles]
    by_cases hc : f.name == "config.v2.json"
    · rw [if_pos hc, h f (List.mem_cons_self f rest) (by simpa using hc)]
    · rw [if_neg hc]
      by_cases hl : f.name == lfn
      · rw [if_pos hl]; exact ih hrest true
      · rw [if_neg hl]; exact ih hrest b

/-- If no file of the directory bears the expected log file name, the
scanned log flag stays false. -/
theorem scanFiles_no_log (lfn : String) (fs : List DirFile)
    (h : ∀ f ∈ fs, f.name ≠ lfn) :
    ∀ cfg, (scanContainerFiles lfn fs (cfg, false)).2 = false := by
  induction fs with
  | nil => intro cfg; rfl
  | cons f rest ih =>
    intro cfg
    have hrest : ∀ g ∈ rest, g.name ≠ lfn :=
      fun g hg => h g (List.mem_cons_of_mem f hg)
    simp only [scanContainerFiles]
    by_cases hc : f.name == "config.v2.json"
    · rw [if_pos hc]
      cases hp : f.parsedConfig with
      | none => rfl
      | some c => exact ih hrest (some c)
    · rw [if_neg hc]
      by_cases hl : f.name == lfn
      · exact absurd (by simpa using hl) (h f (List.mem_cons_self f rest))
      · rw [if_neg hl]; exact ih hrest cfg

/-- Scanning files none of which is the metadata file keeps the config
and just detects the log file. -/
theorem scanFiles_no_config (lfn : String) (fs : List DirFile)
    (h : ∀ f ∈ fs, f.name ≠ "config.v2.json") :
    ∀ cfg b, scanContainerFiles lfn fs (cfg, b)
      = (cfg, b || fs.any (fun f => f.name == lfn)) := by
  induction fs with
  | nil => intro cfg b; simp [scanContainerFiles]
  | cons f rest ih =>
    intro cfg b
    have hrest : ∀ g ∈ rest, g.name ≠ "config.v2.json" :=
      fun g hg => h g (List.mem_cons_of_mem f hg)
    simp only [scanContainerFiles]
    rw [if_neg (by simpa using h f (List.mem_cons_self f rest))]
    by_cases hl : f.name == lfn
    · rw [if_pos hl, ih hrest cfg true]
      simp [List.any_cons, hl]
    · rw [if_neg hl, ih hrest cfg b]
      simp [List.any_cons, hl]

/-- Scanning a directory holding exactly one metadata file, which parses
to `c`, yields `c` and the log-file detection flag. -/
theorem scanFiles_with_config (lfn : String) (hlfn : lfn ≠ "config.v2.json")
    (fs : List DirFile) (c : ContainerConfig)
    (hmem : ∃ f ∈ fs, f.name = "config.v2.json" ∧ f.parsedConfig = some c)
    (huniq : (fs.filter (fun f => f.name == "config.v2.json")).length ≤ 1) :
    ∀ cfg b, scanContainerFiles lfn fs (cfg, b)
      = (some c, b || fs.any (fun f => f.name == lfn)) := by
  induction fs with
  | nil => simp at hmem
  | cons f rest ih =>
    intro cfg b
    by_cases hc : f.name = "config.v2.json"
    · have hcount : (rest.filter (fun f => f.name == "config.v2.json")).length = 0 := by
        have hb : (f.name == "config.v2.json") = true := by simpa using hc
        rw [List.filter_cons, if_pos hb, List.length_cons] at huniq
        omega
      have hrestno : ∀ g ∈ rest, g.name ≠ "config.v2.json" := by
        intro g hg hgc
        have hmem2 : g ∈ rest.filter (fun f => f.name == "config.v2.json") :=
          List.mem_filter.mpr ⟨hg, by simpa using hgc⟩
        rw [List.length_eq_zero] at hcount
        rw [hcount] at hmem2
        exact absurd hmem2 (List.not_mem_nil g)
      have hsome : f.parsedConfig = some c := by
        obtain ⟨g, hg, hgc, hgp⟩ := hmem
        rcases List.mem_cons.mp hg with rfl | hgrest
        · exact hgp
        · exact absurd hgc (hrestno g hgrest)
      have hne : f.name ≠ lfn := by rw [hc]; exact fun hh => hlfn hh.symm
      have hblfn : (f.name == lfn) = false := beq_eq_false_iff_ne.mpr hne
      simp only [scanContainerFiles]
      rw [if_pos (by simpa using hc), hsome]
      show scanContainerFiles lfn rest (some c, b) = _
      rw [scanFiles_no_config lfn rest hrestno (some c) b]
      simp [List.any_cons, hblfn]
    · have hmem2 : ∃ g ∈ rest, g.name = "config.v2.json" ∧ g.parsedConfig = some c := by
        obtain ⟨g, hg, hgc, hgp⟩ := hmem
        rcases List.mem_cons.mp hg with rfl | hgrest
        · exact absurd hgc hc
        · exact ⟨g, hgrest, hgc, hgp⟩
      have huniq2 : (rest.filter (fun f => f.name == "config.v2.json")).length ≤ 1 := by
        rw [List.filter_cons] at huniq
        simpa [beq_eq_false_iff_ne.mpr hc] using huniq
      simp only [scanContainerFiles]
      rw [if_neg (by simpa using hc)]
      by_cases hl : f.name == lfn
      · rw [if_pos hl, ih hmem2 huniq2 cfg true]
        simp [List.any_cons, hl]
      · rw [if_neg hl, ih hmem2 huniq2 cfg b]
        simp [List.any_cons, hl]

/-- C4: discovery excludes every directory missing the metadata file, a
parseable metadata file or the correspondingly-named log file, and a
directory whose metadata file fails to parse is skipped while the
descriptor of every complete, well-formed sibling is still returned. -/
theorem discovery_excludes_and_isolates :
    (∀ e : DirEntry,
      (¬ ∃ f ∈ e.files, f.name = "config.v2.json" ∧ f.parsedConfig.isSome) →
      collectContainer e = none)
    ∧ (∀ e : DirEntry,
      (¬ ∃ f ∈ e.files, f.name = basename e.container_path ++ "-json.log") →
      collectContainer e = none)
    ∧ (∀ (entries : List DirEntry) (e : DirEntry) (c : ContainerConfig),
        e ∈ entries →
        (e.files.filter (fun f => f.name == "config.v2.json")).length ≤ 1 →
        (∃ f ∈ e.files, f.name = "config.v2.json" ∧ f.parsedConfig = some c) →
        (∃ f ∈ e.files, f.name = basename e.container_path ++ "-json.log") →
        collectContainer e
            = some { id := basename e.container_path, config := c,
                     log_file := e.container_path ++ "/"
                       ++ (basename e.container_path ++ "-json.log") }
          ∧ ({ id := basename e.container_path, config := c,
               log_file := e.container_path ++ "/"
                 ++ (basename e.container_path ++ "-json.log") } : Container)
              ∈ get_containers entries) := by
  have hnoparse : ∀ e : DirEntry,
      (¬ ∃ f ∈ e.files, f.name = "config.v2.json" ∧ f.parsedConfig.isSome) →
      collectContainer e = none := by
    intro e hno
    have h1 : ∀ f ∈ e.files, f.name = "config.v2.json" → f.parsedConfig = none := by
      intro f hf hfc
      cases hp : f.parsedConfig with
      | none => rfl
      | some cc => exact absurd ⟨f, hf, hfc, by simp [hp]⟩ hno
    have hfst := scanFiles_no_parse (basename e.container_path ++ "-json.log")
      e.files h1 false
    simp only [collectContainer]
    cases hscan : scanContainerFiles (basename e.container_path ++ "-json.log")
        e.files (none, false) with
    | mk p1 p2 =>
      rw [hscan] at hfst
      simp only at hfst
      subst hfst
      cases p2 <;> rfl
  refine ⟨hnoparse, ?_, ?_⟩
  · intro e hno
    have h1 : ∀ f ∈ e.files, f.name ≠ basename e.container_path ++ "-json.log" := by
      intro f hf hfn
      exact hno ⟨f, hf, hfn⟩
    have hsnd := scanFiles_no_log (basename e.container_path ++ "-json.log")
      e.files h1 none
    simp only [collectContainer]
    cases hscan : scanContainerFiles (basename e.container_path ++ "-json.log")
        e.files (none, false) with
    | mk p1 p2 =>
      rw [hscan] at hsnd
      simp only at hsnd
      subst hsnd
      cases p1 <;> rfl
  · intro entries e c he huniq hcfg hlog
    have hlfn := log_name_ne_config (basename e.container_path)
    have hany : e.files.any
        (fun f => f.name == basename e.container_path ++ "-json.log") = true := by
      rw [List.any_eq_true]
      obtain ⟨f, hf, hfn⟩ := hlog
      exact ⟨f, hf, by simpa using hfn⟩
    have hcol : collectContainer e
        = some { id := basename e.container_path, config := c,
                 log_file := e.container_path ++ "/"
                   ++ (basename e.container_path ++ "-json.log") } := by
      simp only [collectContainer]
      rw [scanFiles_with_config (basename e.container_path ++ "-json.log")
        hlfn e.files c hcfg huniq none false]
      rw [hany]
      rfl
    exact ⟨hcol, List.mem_filterMap.mpr ⟨e, he, hcol⟩⟩

/-- Witness for C4: in a walk over a malformed directory, a complete one
and one missing its log file, only the complete directory's descriptor is
returned. -/
theorem discovery_excludes_and_isolates_witness :
    (fxDirGood ∈ [fxDirMalformed, fxDirGood, fxDirNoLog]
      ∧ (fxDirGood.files.filter (fun f => f.name == "config.v2.json")).length ≤ 1
      ∧ (∃ f ∈ fxDirGood.files,
          f.name = "config.v2.json" ∧ f.parsedConfig = some fxConfig)
      ∧ (∃ f ∈ fxDirGood.files,
          f.name = basename fxDirGood.container_path ++ "-json.log"))
    ∧ collectContainer fxDirGood
        = some { id := basename fxDirGood.container_path, config := fxConfig,
                 log_file := fxDirGood.container_path ++ "/"
                   ++ (basename fxDirGood.container_path ++ "-json.log") }
    ∧ ({ id := basename fxDirGood.container_path, config := fxConfig,
         log_file := fxDirGood.container_path ++ "/"
           ++ (basename fxDirGood.container_path ++ "-json.log") } : Container)
        ∈ get_containers [fxDirMalformed, fxDirGood, fxDirNoLog] := by
  have hmain := (discovery_excludes_and_isolates.2.2
    [fxDirMalformed, fxDirGood, fxDirNoLog] fxDirGood fxConfig
    (by decide) (by decide) (by decide) (by decide))
  exact ⟨⟨by decide, by decide, by decide, by decide⟩, hmain.1, hmain.2⟩

/-- Appending a single element sets the last element. -/
theorem getLast_append_singleton {α : Type} (l : List α) (a : α) :
    (l ++ [a]).getLast? = some a := by
  rw [List.getLast?_append]
  rfl

/-- A `d[k] = v` assignment makes `d.get(k)` return `v`. -/
theorem dictSet_lookup {α : Type} (xs : List (String × α)) (k : String)
    (v : α) : (dictSet xs k v).lookup k = some v := by
  induction xs with
  | nil => simp [dictSet, List.lookup]
  | cons p rest ih =>
    by_cases hp : (p.1 == k) = true
    · simp only [dictSet, List.any_cons, hp, Bool.true_or, if_pos,
        List.map_cons, if_pos hp]
      simp [List.lookup]
    · have hpf : (p.1 == k) = false := by
        cases hb : (p.1 == k) with
        | true => exact absurd hb hp
        | false => rfl
      have hk : (k == p.1) = false := by
        rw [beq_eq_false_iff_ne]
        intro hh
        exact hp (by simp [hh])
      by_cases hr : (rest.any (fun q => q.1 == k)) = true
      · have hany : ((p.1 == k) || rest.any (fun q => q.1 == k)) = true := by
          rw [hr]; simp
        have hstep : dictSet (p :: rest) k v
            = p :: rest.map (fun q => if q.1 == k then (k, v) else q) := by
          unfold dictSet
          simp only [List.any_cons]
          rw [if_pos hany, List.map_cons, if_neg hp]
        have hd : dictSet rest k v = rest.map
            (fun q => if q.1 == k then (k, v) else q) := by
          simp [dictSet, hr]
        rw [hstep]
        rw [show (List.lookup k (p :: rest.map
            (fun q => if q.1 == k then (k, v) else q)))
          = List.lookup k (rest.map (fun q => if q.1 == k then (k, v) else q))
          from by simp [List.lookup, hk]]
        rw [← hd]
        exact ih
      · have hrf : (rest.any (fun q => q.1 == k)) = false := by
          cases hb : (rest.any (fun q => q.1 == k)) with
          | true => exact absurd hb hr
          | false => rfl
        have hanyf : ((p.1 == k) || rest.any (fun q => q.1 == k)) = false := by
          rw [hpf, hrf]; rfl
        have hstep : dictSet (p :: rest) k v = p :: (rest ++ [(k, v)]) := by
          unfold dictSet
          simp only [List.any_cons]
          rw [if_neg (by rw [hanyf]; simp), List.cons_append]
        have hd : dictSet rest k v = rest ++ [(k, v)] := by
          simp [dictSet, hrf]
        rw [hstep]
        rw [show (List.lookup k (p :: (rest ++ [(k, v)])))
          = List.lookup k (rest ++ [(k, v)]) from by simp [List.lookup, hk]]
        rw [← hd]
        exact ih

/-- Every successful `get_redaction_rules` result ends with the built-in
JWT redaction rule. -/
theorem get_redaction_rules_ok_last {loads : String → Option PyVal}
    {annots : List (String × String)} {cname : Option String}
    {rules : List PyVal}
    (h : get_redaction_rules loads annots cname = .ok rules) :
    rules.getLast? = some JWT_REDACTION_RULE := by
  simp only [get_redaction_rules] at h
  split at h
  · exact absurd h (by simp)
  · injection h with h2
    subst h2
    exact getLast_append_singleton _ _

/-- C3: from an agent state in which a flush has already succeeded (and
no add/remove has happened and the API key file is unchanged since),
flushing twice writes the output file in neither call — at most once. -/
theorem scalyr_flush_idempotent (s : ScalyrState) (k : String)
    (ok1 ok2 : Bool)
    (h1 : s.first_run = false) (h2 : s.api_key = some k)
    (h3 : s.config_file = some ((s.logs.map (fun kv => kv.2.path)).toFinset)) :
    (scalyr_flush s k ok1).2 = false
    ∧ (scalyr_flush (scalyr_flush s k ok1).1 k ok2).2 = false := by
  have main : ∀ (s2 : ScalyrState) (ok : Bool), s2.first_run = false →
      s2.api_key = some k →
      s2.config_file = some ((s2.logs.map (fun kv => kv.2.path)).toFinset) →
      scalyr_flush s2 k ok = (s2, false) := by
    intro s2 ok g1 g2 g3
    obtain ⟨dp, sa, jm, sr, ak, lg, fr, cf⟩ := s2
    simp only at g1 g2 g3
    subst g1; subst g2; subst g3
    simp [scalyr_flush, scalyr_get_current_log_paths]
  refine ⟨by rw [main s ok1 h1 h2 h3], ?_⟩
  rw [main s ok1 h1 h2 h3]
  rw [show ((s, false)).1 = s from rfl, main s ok2 h1 h2 h3]

/-- Witness for C3 at a concrete already-flushed agent state. -/
theorem scalyr_flush_idempotent_witness :
    (fxScalyrFlushed.first_run = false
      ∧ fxScalyrFlushed.api_key = some "key-1"
      ∧ fxScalyrFlushed.config_file
          = some ((fxScalyrFlushed.logs.map (fun kv => kv.2.path)).toFinset))
    ∧ (scalyr_flush fxScalyrFlushed "key-1" true).2 = false
    ∧ (scalyr_flush (scalyr_flush fxScalyrFlushed "key-1" true).1
        "key-1" true).2 = false :=
  ⟨⟨rfl, rfl, by decide⟩,
   scalyr_flush_idempotent fxScalyrFlushed "key-1" true true rfl rfl (by decide)⟩

/-- C10: `_first_run` starts true, is cleared exactly by a successful
render-and-write inside `flush` (a failed write leaves it unchanged, so
the next flush attempts the write again), never reverts to true, and is
untouched by `add_log_target` and `remove_log_target`. -/
theorem scalyr_first_run_lifecycle :
    (∀ (dp : String) (sa : List (String × PyVal))
        (jm : List (String × String)) (sr : List SamplingRule)
        (cf : Option (Finset String)),
      (scalyr_agent_init dp sa jm sr cf).first_run = true)
    ∧ (∀ (s : ScalyrState) (k : String),
        (scalyr_flush s k false).1.first_run = s.first_run)
    ∧ (∀ (s : ScalyrState) (k : String) (ok : Bool),
        ((scalyr_flush s k ok).1.first_run = false
          ↔ (s.first_run = false ∨ (scalyr_flush s k ok).2 = true)))
    ∧ (∀ (s : ScalyrState) (k : String),
        s.first_run = true → (scalyr_flush s k true).2 = true)
    ∧ (∀ (loads : String → Option PyVal) (fsE : String → Bool)
        (crc : String → Nat) (s s2 : ScalyrState) (t : LogTarget),
        scalyr_add_log_target loads fsE crc s t = .ok s2 →
        s2.first_run = s.first_run)
    ∧ (∀ (s : ScalyrState) (cid : String),
        (scalyr_remove_log_target s cid).first_run = s.first_run) := by
  refine ⟨fun dp sa jm sr cf => rfl, ?_, ?_, ?_, ?_, fun s cid => rfl⟩
  · intro s k
    simp only [scalyr_flush]
    split
    · rfl
    · rfl
  · intro s k ok
    simp only [scalyr_flush]
    split
    · cases ok with
      | true => simp
      | false => simp
    · simp
  · intro s k hfr
    simp only [scalyr_flush, hfr]
    simp
  · intro loads fsE crc s s2 t h
    simp only [scalyr_add_log_target] at h
    split at h
    · injection h with h2
      subst h2
      rfl
    · split at h
      · exact absurd h (by simp)
      · split at h
        · exact absurd h (by simp)
        · split at h
          · exact absurd h (by simp)
          · split at h
            · exact absurd h (by simp)
            · injection h with h2
              subst h2
              rfl

/-- Witness for C10: a fresh agent's first flush with a succeeding write
does write the config file. -/
theorem scalyr_first_run_lifecycle_witness :
    fxScalyrFresh.first_run = true
    ∧ (scalyr_flush fxScalyrFresh "key-1" true).2 = true :=
  ⟨rfl, scalyr_first_run_lifecycle.2.2.2.1 fxScalyrFresh "key-1" rfl⟩

/-- C8: every Log Map entry registered by `add_log_target` carries the
built-in JWT redaction rule as the last element of its redaction rules,
whatever the pod's redaction annotation holds. -/
theorem redaction_rules_jwt_last :
    (∀ (loads : String → Option PyVal) (annots : List (String × String))
        (cname : Option String) (rules : List PyVal),
      get_redaction_rules loads annots cname = .ok rules →
      rules.getLast? = some JWT_REDACTION_RULE)
    ∧ (∀ (loads : String → Option PyVal) (fsE : String → Bool)
        (crc : String → Nat) (s s2 : ScalyrState) (t : LogTarget),
        scalyr_add_log_target loads fsE crc s t = .ok s2 →
        s2.logs = s.logs
        ∨ ∃ entry : ScalyrLog, s2.logs.lookup t.id = some entry
            ∧ entry.redaction_rules.getLast? = some JWT_REDACTION_RULE) := by
  refine ⟨fun loads annots cname rules h => get_redaction_rules_ok_last h, ?_⟩
  intro loads fsE crc s s2 t h
  simp only [scalyr_add_log_target] at h
  split at h
  · injection h with h2
    subst h2
    exact Or.inl rfl
  · split at h
    · exact absurd h (by simp)
    · split at h
      · exact absurd h (by simp)
      · split at h
        · exact absurd h (by simp)
        · split at h
          · exact absurd h (by simp)
          · rename_i hred
            injection h with h2
            subst h2
            refine Or.inr ⟨_, dictSet_lookup _ _ _, ?_⟩
            exact get_redaction_rules_ok_last hred

/-- Witness for C8: with no annotations at all, the registered redaction
rules are exactly the built-in JWT rule. -/
theorem redaction_rules_jwt_last_witness :
    get_redaction_rules (fun _ => none) [] none = .ok [JWT_REDACTION_RULE]
    ∧ ([JWT_REDACTION_RULE] : List PyVal).getLast? = some JWT_REDACTION_RULE :=
  ⟨rfl, redaction_rules_jwt_last.1 (fun _ => none) [] none
    [JWT_REDACTION_RULE] rfl⟩

end KubeLogWatcher
